import Mathlib

/-!
# Verification of the Daily AI Pulse RSS pipeline (`scripts/fetch-rss.js`)

Shallow embedding of the pipeline's pure logic.  Modelling conventions:

* Instants are `Nat` seconds since the Unix epoch.  A calendar date
  (`YYYY-MM-DD` string in the JavaScript code) is modelled by its day
  number `Nat`; lexicographic order on equal-length ISO-8601 date strings
  coincides with numeric order on day numbers, so the string comparisons
  `a.date >= cutoffStr` and `b.date.localeCompare(a.date)` are modelled by
  `≤` on day numbers.
* The host clock used by `setDate` is a fixed-offset clock (the pipeline
  runs on a UTC CI runner), so `d.setDate(d.getDate() + days)` shifts the
  instant by exactly `days * 86400` seconds.
* `new Date(string)` parsing is an oracle parameter
  `parseDate : String → Option Nat` (`none` models an Invalid Date, whose
  `toISOString` throws and is caught, yielding "today").
* JavaScript string `.slice` and `.length` count UTF-16 code units; we
  count characters.  No claim distinguishes the two.
-/

namespace DailyAIPulse

/-! ## Date helpers (`toBeijingDateStr`, `todayStr`, `dateOffset`, `toDateStr`) -/

/-- `toBeijingDateStr`: add the fixed 8-hour offset to the instant and take
the calendar date (day number) of the shifted instant. -/
def toBeijingDateStr (t : Nat) : Nat :=
  (t + 8 * 3600) / 86400

/-- `todayStr()`: today's date in the reference timezone, from the current
instant `now`. -/
def todayStr (now : Nat) : Nat :=
  toBeijingDateStr now

/-- `dateOffset(-daysBack)`: shift the current instant back by `daysBack`
days on the (fixed-offset) host clock, then take the Beijing date. -/
def dateOffset (now : Nat) (daysBack : Nat) : Nat :=
  toBeijingDateStr (now - daysBack * 86400)

/-- `cutoff.toISOString().slice(0,10)` after `setDate(getDate() - 30)`:
the *UTC* calendar date of the instant 30 days before `now`.  Note the
absence of the 8-hour shift, in contrast to `toBeijingDateStr`. -/
def utcDateStr (t : Nat) : Nat :=
  t / 86400

/-- The retention cutoff computed by `main` (lines 284-287 of the source):
UTC date of `now - 30 days`. -/
def mergeCutoff (now : Nat) : Nat :=
  utcDateStr (now - 30 * 86400)

/-- `toDateStr(dateVal)`: empty/falsy value or unparseable date gives
"today"; otherwise the Beijing date of the parsed instant. -/
def toDateStr (parseDate : String → Option Nat) (now : Nat) (dateVal : String) : Nat :=
  if dateVal = "" then todayStr now
  else
    match parseDate dateVal with
    | some t => toBeijingDateStr t
    | none => todayStr now

/-! ## `stripHtml`

`String(html).replace(/<[^>]*>/g,'').replace(/&amp;/g,'&').replace(/&lt;/g,'<')
  .replace(/&gt;/g,'>').replace(/&quot;/g,'"').replace(/&#39;/g,"'")
  .replace(/&nbsp;/g,' ').trim()`

Implemented on `List Char` with a fuel argument (`fuel = length` of the
input suffices, since each step consumes at least one character); this keeps
every function structurally recursive and kernel-evaluable. -/

/-- Whitespace as trimmed by JavaScript `String.prototype.trim` (the subset
relevant here: ASCII whitespace and the no-break space). -/
def isJsSpace (c : Char) : Bool :=
  c = ' ' ∨ c = '\t' ∨ c = '\n' ∨ c = '\r' ∨ c = Char.ofNat 11 ∨
    c = Char.ofNat 12 ∨ c = Char.ofNat 160

/-- Trim `isJsSpace` characters from both ends. -/
def trimChars (l : List Char) : List Char :=
  ((l.dropWhile isJsSpace).reverse.dropWhile isJsSpace).reverse

/-- One global (left-to-right, non-overlapping) literal replacement, as
`String.prototype.replace` with a `/g` literal pattern. -/
def replaceAllAux (pat rep : List Char) : Nat → List Char → List Char
  | 0, l => l
  | _ + 1, [] => []
  | fuel + 1, c :: rest =>
    if pat ≠ [] ∧ List.take pat.length (c :: rest) = pat then
      rep ++ replaceAllAux pat rep fuel (List.drop pat.length (c :: rest))
    else
      c :: replaceAllAux pat rep fuel rest

def replaceAll (pat rep l : List Char) : List Char :=
  replaceAllAux pat rep l.length l

/-- Remove every span matching `<[^>]*>`: a `<` with a subsequent `>` is
deleted together with everything between them (up to the first `>`); a `<`
with no later `>` stays (the regex finds no match there). -/
def stripTagsAux : Nat → List Char → List Char
  | 0, l => l
  | _ + 1, [] => []
  | fuel + 1, c :: rest =>
    if c = '<' ∧ rest.contains '>' then
      stripTagsAux fuel (List.drop 1 (rest.dropWhile (· ≠ '>')))
    else
      c :: stripTagsAux fuel rest

def stripTags (l : List Char) : List Char :=
  stripTagsAux l.length l

def stripHtmlChars (l : List Char) : List Char :=
  trimChars <|
    replaceAll "&nbsp;".data " ".data <|
    replaceAll "&#39;".data "\'".data <|
    replaceAll "&quot;".data "\"".data <|
    replaceAll "&gt;".data ">".data <|
    replaceAll "&lt;".data "<".data <|
    replaceAll "&amp;".data "&".data <|
    stripTags l

/-- `stripHtml(html)`: `''` for a falsy argument, otherwise tag removal,
entity unescaping (`&amp;` first), and trimming, in that order. -/
def stripHtml (s : String) : String :=
  if s = "" then "" else ⟨stripHtmlChars s.data⟩

/-! ## Parsed feed-entry fields

`fast-xml-parser` (with `ignoreAttributes: false`, `attributeNamePrefix '@_'`)
yields for each field either nothing, a scalar string, or an element node
carrying an optional text child (`#text`) and the attributes/properties the
script probes (`@_href`, `href`).  The JavaScript truthiness tests and the
`String(...)` coercion applied by the script are modelled exactly on these
shapes. -/

inductive JSField where
  | absent : JSField
  | str : String → JSField
  | node : Option String → Option String → Option String → JSField
deriving DecidableEq

/-- `String(x)` on the modelled values.  An element node stringifies to
`"[object Object]"`. -/
def jsToString : JSField → String
  | .absent => "undefined"
  | .str s => s
  | .node _ _ _ => "[object Object]"

/-- A string property value survives `||` only when truthy (non-empty). -/
def truthyStr : Option String → Option String
  | some s => if s = "" then none else some s
  | none => none

/-- `f?.['#text']` as a truthy-or-skipped `||` operand. -/
def fieldText : JSField → Option String
  | .node t _ _ => truthyStr t
  | _ => none

/-- `f?.['@_href']` as a truthy-or-skipped `||` operand. -/
def fieldAttrHref : JSField → Option String
  | .node _ a _ => truthyStr a
  | _ => none

/-- `f?.href` as a truthy-or-skipped `||` operand. -/
def fieldHref : JSField → Option String
  | .node _ _ h => truthyStr h
  | _ => none

/-- `f` itself as a truthy-or-skipped `||` operand: an empty string and an
absent field are falsy, a node is always truthy. -/
def fieldSelf : JSField → Option JSField
  | .absent => none
  | .str s => if s = "" then none else some (.str s)
  | .node t a h => some (.node t a h)

/-- `stripHtml(item.title?.['#text'] || item.title || '')`. -/
def resolveTitle (title : JSField) : String :=
  match (fieldText title).map JSField.str <|> fieldSelf title with
  | some v => stripHtml (jsToString v)
  | none => stripHtml ""

/-- `item.link?.['@_href'] || item.link?.href || item.link || item.id || ''`;
`none` models the chain ending in the falsy `''`. -/
def resolveLink (link idField : JSField) : Option JSField :=
  (fieldAttrHref link).map JSField.str <|> (fieldHref link).map JSField.str <|>
    fieldSelf link <|> fieldSelf idField

/-- `typeof link === 'string' ? link : String(link)`. -/
def linkToUrl : JSField → String
  | .str s => s
  | v => jsToString v

/-- `stripHtml(item.description?.['#text'] || item.description || item.summary?.['#text']
|| item.summary || item.content?.['#text'] || item.content || '').slice(0, 300)`. -/
def resolveDesc (description summ content : JSField) : String :=
  ⟨(stripHtml <| match
      (fieldText description).map JSField.str <|> fieldSelf description <|>
      (fieldText summ).map JSField.str <|> fieldSelf summ <|>
      (fieldText content).map JSField.str <|> fieldSelf content with
    | some v => jsToString v
    | none => "").data.take 300⟩

/-! ## Data model -/

/-- One entry of the `SOURCES` registry.  `language` may be empty in older
registry entries (the extractor then defaults it to `"en"`); a missing
`rssAlternate` is `none`. -/
structure Source where
  name : String
  type : String
  language : String
  company : String
  rss : String
  rssAlternate : Option String
deriving DecidableEq

/-- One raw feed entry as probed by the script.  The four date fields are
strings, with `""` standing for an absent (or present-but-empty, equally
falsy) value. -/
structure RawEntry where
  pubDate : String
  published : String
  updated : String
  dcDate : String
  title : JSField
  link : JSField
  idField : JSField
  description : JSField
  summ : JSField
  content : JSField
deriving DecidableEq

/-- A persisted article (the JSON shape written to `articles.json`), with
the date as a day number. -/
structure Article where
  id : String
  date : Nat
  sourceType : String
  sourceName : String
  company : String
  language : String
  title : String
  summary : String
  url : String
deriving DecidableEq

/-! ## Article Extractor (the `items.map(...)` body in `tryFetchURL`) -/

/-- `item.pubDate || item.published || item.updated || item['dc:date'] || ''`. -/
def resolvePubDate (item : RawEntry) : String :=
  if item.pubDate ≠ "" then item.pubDate
  else if item.published ≠ "" then item.published
  else if item.updated ≠ "" then item.updated
  else if item.dcDate ≠ "" then item.dcDate
  else ""

/-- The body of `items.map(item => ...)` in `tryFetchURL`: date resolution,
the inclusive 7-day window filter, field cleanup, rejection of entries with
an empty title or link, and assembly of the Article (`newId` stands for the
`generateId()` call). -/
def extractArticle (parseDate : String → Option Nat) (now : Nat) (newId : String)
    (source : Source) (item : RawEntry) : Option Article :=
  let dateStr := toDateStr parseDate now (resolvePubDate item)
  let cutoff := dateOffset now 7
  let today := todayStr now
  if dateStr < cutoff ∨ today < dateStr then none
  else
    let title := resolveTitle item.title
    let desc := resolveDesc item.description item.summ item.content
    match resolveLink item.link item.idField with
    | none => none
    | some linkVal =>
      if title = "" then none
      else
        some
          { id := newId
            date := dateStr
            sourceType := source.type
            sourceName := source.name
            company := source.company
            language := if source.language = "" then "en" else source.language
            title := title
            summary := if desc = "" then title else desc
            url := linkToUrl linkVal }

/-- `items.map(...).filter(Boolean)`: the article list produced from the
parsed entries of one feed (fresh ids supplied per index). -/
def extractArticles (parseDate : String → Option Nat) (now : Nat) (newId : Nat → String)
    (source : Source) (items : List RawEntry) : List Article :=
  (items.enum).filterMap fun p => extractArticle parseDate now (newId p.1) source p.2

/-! ## Fetch Orchestrator (`fetchRSS`)

`tryFetchURL` is modelled as an oracle `f : String → List Article` from the
attempted URL to its resulting article list: every failure mode (transport
error, non-success status, parse failure, all entries filtered out) returns
`[]` in the source, so `[]` is the generic failure value. -/

/-- `urls = [source.rss, source.rssAlternate].filter(Boolean)`. -/
def urlsOf (s : Source) : List String :=
  ([some s.rss, s.rssAlternate].filterMap id).filter fun u => u ≠ ""

/-- `Array.prototype.indexOf`: index of the first occurrence, `-1` if absent. -/
def jsIndexOf (l : List String) (u : String) : Int :=
  let i := l.findIdx (· == u)
  if i = l.length then -1 else (i : Int)

/-- The `for (const url of urls)` loop of `fetchRSS`, including the trailing
`return []`. -/
def fetchRSSLoop (f : String → List Article) (urls : List String) :
    List String → List Article
  | [] => []
  | url :: rest =>
    let articles := f url
    if articles.length > 0 ∨ jsIndexOf urls url = (urls.length : Int) - 1 then articles
    else fetchRSSLoop f urls rest

/-- `fetchRSS(source)`. -/
def fetchRSS (f : String → List Article) (s : Source) : List Article :=
  fetchRSSLoop f (urlsOf s) (urlsOf s)

/-! ## Summarizer Adapter (`aiSummarize`)

The external capability is an oracle from the single user-role prompt to an
outcome: `ok text` for a well-formed response, `err` for every failure
(timeout, thrown error, malformed response — all reach the `catch`).
`none` for the capability models an unset `ANTHROPIC_API_KEY`. -/

inductive AIResult where
  | ok : String → AIResult
  | err : AIResult
deriving DecidableEq

/-- JavaScript `.trim()` (on the model's whitespace subset). -/
def jsTrim (s : String) : String :=
  ⟨trimChars s.data⟩

/-- The prompt string built inside `aiSummarize`. -/
def aiPrompt (title rawDesc language : String) : String :=
  let lang := if language = "zh" then "中文" else "English"
  "Summarize in 1 sentence, max 100 chars, in " ++ lang ++ ". No quotes.\nTitle: " ++
    title ++ "\nText: " ++ ⟨rawDesc.data.take 400⟩

/-- `aiSummarize(title, rawDesc, language)`: short-circuit on a missing
capability, a falsy summary, or length ≤ 120; otherwise call the capability
and fall back to `rawDesc` on any failure. -/
def aiSummarize (anthropic : Option (String → AIResult))
    (title rawDesc language : String) : String :=
  match anthropic with
  | none => rawDesc
  | some call =>
    if rawDesc = "" ∨ rawDesc.length ≤ 120 then rawDesc
    else
      match call (aiPrompt title rawDesc language) with
      | .ok t => jsTrim t
      | .err => rawDesc

/-! ## Merge Engine (`main`, lines 272-290)

URL dedup against the existing collection, in-place summarization of the
new unique articles, 30-day retention trim of the existing collection, and
the final descending-by-date sort.

`Array.prototype.sort` is stable (ES2019); for the total preorder induced
by the comparator `(a, b) => b.date.localeCompare(a.date)` a stable sort's
output is uniquely determined, and is embedded here as the (stable)
insertion sort with relation `dateGe a b ↔ b.date ≤ a.date`. -/

def dateGe (a b : Article) : Prop :=
  b.date ≤ a.date

instance : DecidableRel dateGe := fun a b => Nat.decLe b.date a.date

instance : IsTotal Article dateGe :=
  ⟨fun a b => Nat.le_total b.date a.date⟩

instance : IsTrans Article dateGe :=
  ⟨fun _ _ _ h1 h2 => Nat.le_trans h2 h1⟩

/-- `article.summary = await aiSummarize(article.title, article.summary,
article.language)` for one article. -/
def summarizeArticle (anthropic : Option (String → AIResult)) (a : Article) : Article :=
  { a with summary := aiSummarize anthropic a.title a.summary a.language }

/-- `const existingUrls = new Set(existing.map(a => a.url));
const newUnique = allNew.filter(a => !existingUrls.has(a.url));` -/
def newUniqueOf (allNew existing : List Article) : List Article :=
  allNew.filter fun a => !((existing.map fun b => b.url).contains a.url)

/-- `if (anthropic && newUnique.length > 0) { for (const article of newUnique)
article.summary = await aiSummarize(...); }` — the in-place summary rewrite
of the new unique articles. -/
def summarizedOf (anthropic : Option (String → AIResult))
    (newUnique : List Article) : List Article :=
  if anthropic.isSome ∧ newUnique.length > 0 then
    newUnique.map (summarizeArticle anthropic)
  else newUnique

/-- `const trimmed = existing.filter(a => a.date >= cutoffStr);` -/
def trimmedOf (now : Nat) (existing : List Article) : List Article :=
  existing.filter fun a => decide (mergeCutoff now ≤ a.date)

/-- The merge stage of `main` (everything between loading `existing` and
writing `final`): `const final = [...newUnique, ...trimmed].sort((a, b) =>
b.date.localeCompare(a.date));` with the dedup, summarization and trim
stages above. -/
def mergeEngine (now : Nat) (anthropic : Option (String → AIResult))
    (allNew existing : List Article) : List Article :=
  List.insertionSort dateGe
    (summarizedOf anthropic (newUniqueOf allNew existing) ++ trimmedOf now existing)

/-! ## Concrete fixtures for counterexamples and witnesses -/

/-- Two distinct articles sharing the URL `"u"`. -/
def artU1 : Article := ⟨"x1", 5, "portal", "S", "", "en", "T1", "s1", "u"⟩

def artU2 : Article := ⟨"x2", 5, "portal", "S", "", "en", "T2", "s2", "u"⟩

/-- A fresh article (date = day 200) whose URL duplicates `artOld`. -/
def artNew : Article := ⟨"n", 200, "portal", "S", "", "en", "T", "s", "u"⟩

/-- A long-expired existing article with the same URL as `artNew`. -/
def artOld : Article := ⟨"o", 100, "portal", "S", "", "en", "T0", "s0", "u"⟩

/-- An existing article dated exactly 31 days before the Beijing "today" of
the instant `200 * 86400 + 20 * 3600` (Beijing day 201). -/
def artStale : Article := ⟨"st", 170, "portal", "S", "", "en", "T", "s", "w"⟩

/-- An existing article with URL `"u"` still inside the retention window at
`now = 200 * 86400`. -/
def artRecent : Article := ⟨"r", 199, "portal", "S", "", "en", "TR", "sr", "u"⟩

/-- A date-parsing oracle mapping four tokens to the instants of days
12, 13, 20 and 21. -/
def pd0 : String → Option Nat := fun s =>
  if s = "d12" then some (12 * 86400)
  else if s = "d13" then some (13 * 86400)
  else if s = "d20" then some (20 * 86400)
  else if s = "d21" then some (21 * 86400)
  else none

def src0 : Source := ⟨"S", "portal", "en", "", "http://p", none⟩

/-- A well-formed raw entry carrying the given `pubDate` token. -/
def entry (d : String) : RawEntry :=
  ⟨d, "", "", "", .str "Title", .str "http://x", .absent, .str "desc", .absent, .absent⟩

/-- A raw entry with a valid title and date but no link and no id. -/
def entryNoLink : RawEntry :=
  ⟨"d20", "", "", "", .str "Title", .absent, .absent, .str "desc", .absent, .absent⟩

/-- A fetch oracle on which only the fallback URL succeeds. -/
def fA : String → List Article := fun u => if u = "http://alt" then [artU1] else []

def srcFB : Source := ⟨"S", "portal", "en", "", "http://p", some "http://alt"⟩

/-! ## Claims -/

/-- C1: the claim states that the Merge Engine's retention cutoff is
"today − 30 days" in the reference timezone (UTC+8) and that no retained
article is older than that.  The code computes the cutoff from
`toISOString()`, i.e. on the *UTC* calendar — contradicting the script's
own comment "Use Beijing time (UTC+8) for all date comparisons".  At the
instant `200 d 20 h` (UTC hour 20, so the Beijing date is one day ahead:
day 201), the cutoff is UTC day 170 while the reference-timezone cutoff is
201 − 30 = 171, and the engine retains an existing article dated day 170 =
Beijing-today − 31.  (The production schedule, 06:00 Beijing = 22:00 UTC,
hits this window on every run.) -/
theorem C1_utc_cutoff_retains_stale :
    mergeEngine (200 * 86400 + 20 * 3600) none [] [artStale] = [artStale] ∧
    artStale.date < todayStr (200 * 86400 + 20 * 3600) - 30 ∧
    mergeCutoff (200 * 86400 + 20 * 3600) ≠ todayStr (200 * 86400 + 20 * 3600) - 30 := by
  decide

/-- C6: for every pair of inputs (and any instant and summarization
capability), the Merge Engine's output is non-increasing by date from
first to last element. -/
theorem C6_output_sorted_desc (now : Nat) (anthropic : Option (String → AIResult))
    (allNew existing : List Article) :
    (mergeEngine now anthropic allNew existing).Pairwise fun a b => b.date ≤ a.date :=
  List.sorted_insertionSort dateGe _

/-- C8: the Summarizer Adapter returns `rawDesc` unchanged when no
capability is configured or the summary has length ≤ 120 (regardless of
the capability's behaviour, i.e. without invoking it), returns `rawDesc`
unchanged when the external call fails, and always returns either
`rawDesc` or the external capability's (trimmed) text; it is a total
function, so it never raises to its caller. -/
theorem C8_summarizer_fallback (anthropic : Option (String → AIResult))
    (title rawDesc language : String) :
    ((anthropic = none ∨ rawDesc.length ≤ 120) →
      aiSummarize anthropic title rawDesc language = rawDesc) ∧
    (∀ call, anthropic = some call →
      call (aiPrompt title rawDesc language) = .err →
      aiSummarize anthropic title rawDesc language = rawDesc) ∧
    (aiSummarize anthropic title rawDesc language = rawDesc ∨
      ∃ call t, anthropic = some call ∧
        call (aiPrompt title rawDesc language) = .ok t ∧
        aiSummarize anthropic title rawDesc language = jsTrim t) := by
  cases anthropic with
  | none =>
    refine ⟨fun _ => rfl, ?_, Or.inl rfl⟩
    intro call hc
    cases hc
  | some call =>
    refine ⟨?_, ?_, ?_⟩
    · intro h
      rcases h with h | h
      · cases h
      · simp [aiSummarize, h]
    · intro c hc herr
      cases hc
      by_cases hshort : rawDesc = "" ∨ rawDesc.length ≤ 120
      · simp [aiSummarize, hshort]
      · simp [aiSummarize, hshort, herr]
    · by_cases hshort : rawDesc = "" ∨ rawDesc.length ≤ 120
      · exact Or.inl (by simp [aiSummarize, hshort])
      · cases hr : call (aiPrompt title rawDesc language) with
        | ok t =>
          exact Or.inr ⟨call, t, rfl, hr, by simp [aiSummarize, hshort, hr]⟩
        | err =>
          exact Or.inl (by simp [aiSummarize, hshort, hr])

theorem C8_summarizer_fallback_witness :
    aiSummarize none "t" "abc" "en" = "abc" :=
  (C8_summarizer_fallback none "t" "abc" "en").1 (Or.inl rfl)

/-- C9: the publish date is resolved from, in priority order, RSS
`pubDate`, Atom `published`, Atom `updated`, Dublin-Core `dc:date` (first
non-empty wins); when all are absent, or the selected value cannot be
parsed as a date, resolution returns "today" in the reference timezone
(and, being a total function, it never fails the entry). -/
theorem C9_date_resolution_priority (parseDate : String → Option Nat) (now : Nat)
    (item : RawEntry) :
    (item.pubDate ≠ "" → resolvePubDate item = item.pubDate) ∧
    (item.pubDate = "" → item.published ≠ "" → resolvePubDate item = item.published) ∧
    (item.pubDate = "" → item.published = "" → item.updated ≠ "" →
      resolvePubDate item = item.updated) ∧
    (item.pubDate = "" → item.published = "" → item.updated = "" → item.dcDate ≠ "" →
      resolvePubDate item = item.dcDate) ∧
    (item.pubDate = "" → item.published = "" → item.updated = "" → item.dcDate = "" →
      toDateStr parseDate now (resolvePubDate item) = todayStr now) ∧
    (∀ v : String, parseDate v = none → toDateStr parseDate now v = todayStr now) := by
  refine ⟨fun h1 => ?_, fun h1 h2 => ?_, fun h1 h2 h3 => ?_, fun h1 h2 h3 h4 => ?_,
    fun h1 h2 h3 h4 => ?_, fun v hv => ?_⟩
  · simp [resolvePubDate, h1]
  · simp [resolvePubDate, h1, h2]
  · simp [resolvePubDate, h1, h2, h3]
  · simp [resolvePubDate, h1, h2, h3, h4]
  · simp [resolvePubDate, toDateStr, h1, h2, h3, h4]
  · by_cases hv0 : v = "" <;> simp [toDateStr, hv0, hv]

theorem C9_date_resolution_priority_witness :
    resolvePubDate (entry "d20") = "d20" ∧
    toDateStr pd0 (20 * 86400) "junk" = todayStr (20 * 86400) :=
  ⟨(C9_date_resolution_priority pd0 (20 * 86400) (entry "d20")).1 (by decide),
    (C9_date_resolution_priority pd0 (20 * 86400) (entry "d20")).2.2.2.2.2 "junk" (by decide)⟩

/-- C10: `stripHtml` removes tag-shaped spans before unescaping entities
and replaces `&amp;` before the other four entities, so the doubly-escaped
input `"&amp;lt;b&amp;gt;"` comes out as the literal markup `"<b>"` —
fully unescaped, neither left singly escaped nor stripped as a tag. -/
theorem C10_stripHtml_double_escape : stripHtml "&amp;lt;b&amp;gt;" = "<b>" := by
  decide

/-! ### Supporting lemmas -/

theorem summarizedOf_map_url (anthropic : Option (String → AIResult))
    (l : List Article) :
    ((summarizedOf anthropic l).map fun a => a.url) = l.map fun a => a.url := by
  unfold summarizedOf
  split
  · rw [List.map_map]
    rfl
  · rfl

theorem truthyStr_ne_empty (o : Option String) (s : String) (h : truthyStr o = some s) :
    s ≠ "" := by
  cases o with
  | none => cases h
  | some t =>
    by_cases ht : t = ""
    · simp [truthyStr, ht] at h
    · simp [truthyStr, ht] at h
      subst h
      exact ht

theorem fieldAttrHref_ne_empty (f : JSField) (s : String) (h : fieldAttrHref f = some s) :
    s ≠ "" := by
  cases f with
  | absent => cases h
  | str t => cases h
  | node t a hr => exact truthyStr_ne_empty a s h

theorem fieldHref_ne_empty (f : JSField) (s : String) (h : fieldHref f = some s) :
    s ≠ "" := by
  cases f with
  | absent => cases h
  | str t => cases h
  | node t a hr => exact truthyStr_ne_empty hr s h

theorem fieldSelf_url_ne_empty (f v : JSField) (h : fieldSelf f = some v) :
    linkToUrl v ≠ "" := by
  cases f with
  | absent => cases h
  | str s =>
    by_cases hs : s = ""
    · simp [fieldSelf, hs] at h
    · simp [fieldSelf, hs] at h
      subst h
      simpa [linkToUrl] using hs
  | node t a hr =>
    simp [fieldSelf] at h
    subst h
    simp [linkToUrl, jsToString]

/-- Whatever the link-resolution chain yields, its URL form is non-empty:
either a non-empty href/string, or the `"[object Object]"` coercion of a
node. -/
theorem resolveLink_url_ne_empty (link idf v : JSField)
    (h : resolveLink link idf = some v) : linkToUrl v ≠ "" := by
  unfold resolveLink at h
  cases ha : fieldAttrHref link with
  | some s =>
    rw [ha] at h
    simp only [Option.map_some', Option.some_orElse, Option.some.injEq] at h
    subst h
    simpa [linkToUrl] using fieldAttrHref_ne_empty link s ha
  | none =>
    rw [ha] at h
    simp only [Option.map_none', Option.none_orElse] at h
    cases hh : fieldHref link with
    | some s =>
      rw [hh] at h
      simp only [Option.map_some', Option.some_orElse, Option.some.injEq] at h
      subst h
      simpa [linkToUrl] using fieldHref_ne_empty link s hh
    | none =>
      rw [hh] at h
      simp only [Option.map_none', Option.none_orElse] at h
      cases hf : fieldSelf link with
      | some w =>
        rw [hf] at h
        simp only [Option.some_orElse, Option.some.injEq] at h
        exact h ▸ fieldSelf_url_ne_empty link w hf
      | none =>
        rw [hf] at h
        simp only [Option.none_orElse] at h
        exact fieldSelf_url_ne_empty idf v h

theorem urlsOf_no_alt (s : Source) (h1 : s.rss ≠ "") (h2 : s.rssAlternate = none) :
    urlsOf s = [s.rss] := by
  simp [urlsOf, h1, h2]

theorem urlsOf_with_alt (s : Source) (alt : String) (h1 : s.rss ≠ "")
    (h2 : s.rssAlternate = some alt) (h3 : alt ≠ "") :
    urlsOf s = [s.rss, alt] := by
  simp [urlsOf, h1, h2, h3]

theorem fetchRSSLoop_single (f : String → List Article) (u : String) :
    fetchRSSLoop f [u] [u] = f u := by
  simp [fetchRSSLoop, jsIndexOf, List.findIdx_cons]

theorem fetchRSSLoop_pair_head (f : String → List Article) (u v : String)
    (h : f u ≠ []) : fetchRSSLoop f [u, v] [u, v] = f u := by
  have hpos : (f u).length > 0 := List.length_pos.mpr h
  simp [fetchRSSLoop, hpos]

theorem fetchRSSLoop_pair_alt (f : String → List Article) (u v : String)
    (h : f u = []) : fetchRSSLoop f [u, v] [u, v] = f v := by
  by_cases huv : u = v
  · subst huv
    simp [fetchRSSLoop, jsIndexOf, List.findIdx_cons, h]
  · simp [fetchRSSLoop, jsIndexOf, List.findIdx_cons, h, huv, beq_iff_eq, Ne.symm huv]
    exact fun hv _ => hv

/-! ### Remaining claims -/

/-- C2: the claim states that the Merge Engine output never contains two
articles with the same URL, with a first-occurrence-wins rule for
duplicate URLs inside `newArticles` itself.  The code only filters
`allNew` against the URLs of `existing`; two new articles sharing a URL
both survive, so the claim fails: with two distinct articles of URL `"u"`
and an empty existing collection, the output keeps both occurrences. -/
theorem C2_dedup_counterexample :
    ¬ ((mergeEngine (40 * 86400) none [artU1, artU2] []).map fun a => a.url).Nodup ∧
    artU1.url = artU2.url ∧
    mergeEngine (40 * 86400) none [artU1, artU2] [] = [artU1, artU2] := by
  decide

/-- C2 (amended): new articles whose URL already occurs in
`existingArticles` are excluded, and output URLs are unique whenever
`newArticles` itself (and `existingArticles`) contain no duplicate URLs;
duplicate URLs inside `newArticles` are however all kept, not collapsed to
the first occurrence. -/
theorem C2_dedup_unique_urls (now : Nat) (anthropic : Option (String → AIResult))
    (allNew existing : List Article)
    (hNew : (allNew.map fun a => a.url).Nodup)
    (hEx : (existing.map fun a => a.url).Nodup) :
    ((mergeEngine now anthropic allNew existing).map fun a => a.url).Nodup ∧
    ∀ b ∈ mergeEngine now anthropic allNew existing,
      (b.url ∈ existing.map fun a => a.url) → b ∈ existing := by
  have hperm := List.perm_insertionSort dateGe
    (summarizedOf anthropic (newUniqueOf allNew existing) ++ trimmedOf now existing)
  have hmap := hperm.map fun a => a.url
  rw [List.map_append, summarizedOf_map_url] at hmap
  constructor
  · refine hmap.nodup_iff.mpr ?_
    rw [List.nodup_append]
    refine ⟨hNew.sublist ((List.filter_sublist allNew).map _),
      hEx.sublist ((List.filter_sublist existing).map _), ?_⟩
    intro u hu1 hu2
    obtain ⟨a, ha, hau⟩ := List.mem_map.mp hu1
    have hpa := (List.mem_filter.mp ha).2
    obtain ⟨b, hb, hbu⟩ := List.mem_map.mp hu2
    have hbex : b ∈ existing := (List.mem_filter.mp hb).1
    have hmem : a.url ∈ existing.map fun c => c.url := by
      rw [hau, ← hbu]
      exact List.mem_map_of_mem _ hbex
    simp [hmem] at hpa
  · intro b hb hbu
    have hb2 := hperm.subset hb
    rcases List.mem_append.mp hb2 with hbS | hbT
    · exfalso
      have hbu2 : b.url ∈
          (summarizedOf anthropic (newUniqueOf allNew existing)).map fun a => a.url :=
        List.mem_map_of_mem _ hbS
      rw [summarizedOf_map_url] at hbu2
      obtain ⟨a, ha, hau⟩ := List.mem_map.mp hbu2
      have hpa := (List.mem_filter.mp ha).2
      rw [hau] at hpa
      simp [hbu] at hpa
    · exact (List.mem_filter.mp hbT).1

theorem C2_dedup_unique_urls_witness :
    ((mergeEngine (40 * 86400) none [artU1] [artRecent]).map fun a => a.url).Nodup :=
  (C2_dedup_unique_urls (40 * 86400) none [artU1] [artRecent] (by decide) (by decide)).1

/-- C3: the extractor's date-window filter is inclusive on both ends: a
(well-formed) entry whose resolved date lies in `[today − 7, today]` in
the reference timezone yields an article, an entry resolving outside the
window yields `none` (not an error), and the cutoff equals `today − 7`. -/
theorem C3_date_window (parseDate : String → Option Nat) (now : Nat) (newId : String)
    (source : Source) (item : RawEntry) (hnow : 7 * 86400 ≤ now) :
    (dateOffset now 7 ≤ toDateStr parseDate now (resolvePubDate item) →
      toDateStr parseDate now (resolvePubDate item) ≤ todayStr now →
      resolveTitle item.title ≠ "" →
      (resolveLink item.link item.idField).isSome →
      (extractArticle parseDate now newId source item).isSome) ∧
    (toDateStr parseDate now (resolvePubDate item) < dateOffset now 7 ∨
        todayStr now < toDateStr parseDate now (resolvePubDate item) →
      extractArticle parseDate now newId source item = none) ∧
    dateOffset now 7 = todayStr now - 7 := by
  refine ⟨?_, ?_, ?_⟩
  · intro h1 h2 ht hl
    obtain ⟨lv, hlv⟩ := Option.isSome_iff_exists.mp hl
    simp only [extractArticle, hlv]
    rw [if_neg (by simp only [not_or, not_lt]; exact ⟨h1, h2⟩)]
    simp [ht]
  · intro h
    simp only [extractArticle]
    rw [if_pos h]
  · show toBeijingDateStr (now - 7 * 86400) = todayStr now - 7
    unfold toBeijingDateStr todayStr toBeijingDateStr
    have e1 : now - 7 * 86400 + 8 * 3600 = (now + 8 * 3600) - 86400 * 7 := by omega
    rw [e1, Nat.sub_mul_div (now + 8 * 3600) 86400 7 (by omega)]

/-- C3 witness: at `now` = day 20 (Beijing), with the window
`[13, 20]`, entries resolving to days 12, 13, 20 and 21 yield,
respectively, nothing, an article, an article, and nothing. -/
theorem C3_date_window_witness :
    extractArticle pd0 (20 * 86400) "i" src0 (entry "d12") = none ∧
    (extractArticle pd0 (20 * 86400) "i" src0 (entry "d13")).isSome ∧
    (extractArticle pd0 (20 * 86400) "i" src0 (entry "d20")).isSome ∧
    extractArticle pd0 (20 * 86400) "i" src0 (entry "d21") = none := by
  refine ⟨?_, ?_, ?_, ?_⟩
  · exact (C3_date_window pd0 (20 * 86400) "i" src0 (entry "d12")
      (by decide)).2.1 (Or.inl (by decide))
  · exact (C3_date_window pd0 (20 * 86400) "i" src0 (entry "d13")
      (by decide)).1 (by decide) (by decide) (by decide) (by decide)
  · exact (C3_date_window pd0 (20 * 86400) "i" src0 (entry "d20")
      (by decide)).1 (by decide) (by decide) (by decide) (by decide)
  · exact (C3_date_window pd0 (20 * 86400) "i" src0 (entry "d21")
      (by decide)).2.1 (Or.inr (by decide))

/-- C4: the claim states that re-running the Merge Engine with the same
`newArticles` on its own output never grows the collection.  It fails: a
new article whose only duplicate in `existingArticles` is older than the
retention cutoff sees that duplicate trimmed away in the first run, so the
second run re-admits the new article.  Concretely (`now` = day 200 UTC,
cutoff = 170): new article dated 200 with URL `"u"`, existing article
dated 100 with URL `"u"` — the first output is empty, the second has one
element. -/
theorem C4_rerun_counterexample :
    (mergeEngine (200 * 86400) none [artNew]
        (mergeEngine (200 * 86400) none [artNew] [artOld])).length >
      (mergeEngine (200 * 86400) none [artNew] [artOld]).length := by
  decide

/-- C4 (amended): re-running the Merge Engine with the same `newArticles`
on its own output (at the same instant) yields no growth, provided every
URL of `newArticles` that occurs in `existingArticles` occurs there on an
article dated at least the retention cutoff (in particular whenever the
existing collection satisfies the retention invariant); without that
proviso a new article whose stale duplicate gets trimmed is re-added. -/
theorem C4_rerun_no_growth (now : Nat) (anthropic : Option (String → AIResult))
    (allNew existing : List Article)
    (h : ∀ a ∈ allNew, (a.url ∈ existing.map fun b => b.url) →
      ∃ b ∈ existing, b.url = a.url ∧ mergeCutoff now ≤ b.date) :
    (mergeEngine now anthropic allNew (mergeEngine now anthropic allNew existing)).length ≤
      (mergeEngine now anthropic allNew existing).length := by
  have hperm1 := List.perm_insertionSort dateGe
    (summarizedOf anthropic (newUniqueOf allNew existing) ++ trimmedOf now existing)
  have hall : ∀ a ∈ allNew,
      a.url ∈ (mergeEngine now anthropic allNew existing).map fun b => b.url := by
    intro a ha
    by_cases hmem : a.url ∈ existing.map fun b => b.url
    · obtain ⟨b, hb, hbu, hbd⟩ := h a ha hmem
      have hbT : b ∈ trimmedOf now existing :=
        List.mem_filter.mpr ⟨hb, by simpa using hbd⟩
      have hbo : b ∈ mergeEngine now anthropic allNew existing :=
        hperm1.symm.subset (List.mem_append.mpr (Or.inr hbT))
      exact hbu ▸ List.mem_map_of_mem _ hbo
    · have haN : a ∈ newUniqueOf allNew existing :=
        List.mem_filter.mpr ⟨ha, by simp [hmem]⟩
      have h1 : a.url ∈ (newUniqueOf allNew existing).map fun b => b.url :=
        List.mem_map_of_mem _ haN
      rw [← summarizedOf_map_url anthropic] at h1
      have h2 : a.url ∈ (summarizedOf anthropic (newUniqueOf allNew existing) ++
          trimmedOf now existing).map fun b => b.url := by
        rw [List.map_append]
        exact List.mem_append.mpr (Or.inl h1)
      exact (hperm1.map fun b => b.url).symm.subset h2
  have hnu : newUniqueOf allNew (mergeEngine now anthropic allNew existing) = [] := by
    rw [newUniqueOf, List.filter_eq_nil_iff]
    intro a ha
    simp [hall a ha]
  have hperm2 := List.perm_insertionSort dateGe
    (summarizedOf anthropic (newUniqueOf allNew (mergeEngine now anthropic allNew existing)) ++
      trimmedOf now (mergeEngine now anthropic allNew existing))
  calc (mergeEngine now anthropic allNew
          (mergeEngine now anthropic allNew existing)).length
      = (summarizedOf anthropic
            (newUniqueOf allNew (mergeEngine now anthropic allNew existing)) ++
          trimmedOf now (mergeEngine now anthropic allNew existing)).length :=
        hperm2.length_eq
    _ = (trimmedOf now (mergeEngine now anthropic allNew existing)).length := by
        rw [hnu]
        simp [summarizedOf]
    _ ≤ (mergeEngine now anthropic allNew existing).length := List.length_filter_le _ _

theorem C4_rerun_no_growth_witness :
    (mergeEngine (200 * 86400) none [artNew]
        (mergeEngine (200 * 86400) none [artNew] [artRecent])).length ≤
      (mergeEngine (200 * 86400) none [artNew] [artRecent]).length :=
  C4_rerun_no_growth (200 * 86400) none [artNew] [artRecent] (by decide)

/-- C5: for a source without a fallback URL, only the primary is attempted
and its result is returned; with a fallback, the primary's result is
returned whenever it is non-empty (the fallback is not attempted), and
whenever the primary yields zero articles — for any reason, since every
failure mode of `tryFetchURL` returns the empty list — the returned value
is exactly the fallback attempt's result, never a merge of the two. -/
theorem C5_fallback_orchestration (f : String → List Article) (s : Source) :
    (s.rss ≠ "" → s.rssAlternate = none → fetchRSS f s = f s.rss) ∧
    (∀ alt, s.rss ≠ "" → s.rssAlternate = some alt → alt ≠ "" →
      (f s.rss ≠ [] → fetchRSS f s = f s.rss) ∧
      (f s.rss = [] → fetchRSS f s = f alt)) := by
  constructor
  · intro h1 h2
    rw [fetchRSS, urlsOf_no_alt s h1 h2]
    exact fetchRSSLoop_single f s.rss
  · intro alt h1 h2 h3
    rw [fetchRSS, urlsOf_with_alt s alt h1 h2 h3]
    exact ⟨fetchRSSLoop_pair_head f s.rss alt, fetchRSSLoop_pair_alt f s.rss alt⟩

theorem C5_fallback_orchestration_witness :
    fetchRSS fA srcFB = fA "http://alt" :=
  ((C5_fallback_orchestration fA srcFB).2 "http://alt"
    (by decide) rfl (by decide)).2 (by decide)

/-- C7: the extractor rejects (returns `none` for) every entry whose
resolved title or resolved link is empty — in particular an entry with no
link and no id fallback, whatever its title and date — and every article
it does produce has title equal to the resolved title, summary equal to
the stripped, truncated description when that is non-empty and to the
title otherwise, and non-empty title, url and summary. -/
theorem C7_entry_validation (parseDate : String → Option Nat) (now : Nat) (newId : String)
    (source : Source) (item : RawEntry) :
    (resolveTitle item.title = "" ∨ resolveLink item.link item.idField = none →
      extractArticle parseDate now newId source item = none) ∧
    (item.link = .absent → item.idField = .absent →
      extractArticle parseDate now newId source item = none) ∧
    (∀ a, extractArticle parseDate now newId source item = some a →
      a.title = resolveTitle item.title ∧
      a.summary = (if resolveDesc item.description item.summ item.content = ""
          then resolveTitle item.title
          else resolveDesc item.description item.summ item.content) ∧
      a.title ≠ "" ∧ a.url ≠ "" ∧ a.summary ≠ "") := by
  have hnone : resolveTitle item.title = "" ∨ resolveLink item.link item.idField = none →
      extractArticle parseDate now newId source item = none := by
    intro h
    simp only [extractArticle]
    split
    · rfl
    · cases hl : resolveLink item.link item.idField with
      | none => rfl
      | some lv =>
        dsimp only
        rcases h with h | h
        · rw [if_pos h]
        · rw [h] at hl
          cases hl
  refine ⟨hnone, ?_, ?_⟩
  · intro hL hI
    refine hnone (Or.inr ?_)
    rw [hL, hI]
    rfl
  · intro a ha
    simp only [extractArticle] at ha
    split at ha
    · cases ha
    · cases hl : resolveLink item.link item.idField with
      | none =>
        rw [hl] at ha
        cases ha
      | some lv =>
        rw [hl] at ha
        dsimp only at ha
        by_cases ht : resolveTitle item.title = ""
        · rw [if_pos ht] at ha
          cases ha
        · rw [if_neg ht] at ha
          injection ha with ha
          subst ha
          refine ⟨rfl, rfl, ht,
            resolveLink_url_ne_empty item.link item.idField lv hl, ?_⟩
          by_cases hd : resolveDesc item.description item.summ item.content = ""
          · simpa [hd] using ht
          · simp [hd]

theorem C7_entry_validation_witness :
    extractArticle pd0 (20 * 86400) "i" src0 entryNoLink = none :=
  (C7_entry_validation pd0 (20 * 86400) "i" src0 entryNoLink).2.1 rfl rfl

end DailyAIPulse
